import Mathlib

/-!
Verification of the OmniYield yield-allocation backend.

The development shallowly embeds the two core service modules
(app/services/yield_optimizer.py and app/services/yield_data_service.py)
together with the validation logic of the optimize endpoint
(app/routers/yield_routes.py).  Machine floats are modelled as exact
rationals, integer token amounts as Int, and fallible operations as
Except values.  Every definition is executable.
-/

namespace OmniYield

/-! ## Data model (app/models.py, restricted to the fields the services read) -/

/-- A persisted strategy row.  The timestamp and metadata columns carry no
logic in the verified services and are elided. -/
structure Strategy where
  id : Int
  name : String
  type : String
  contract_address : String
  network : String
  apy : Rat
  tvl : Int
  risk_score : Rat
  is_active : Bool
  deriving Repr, DecidableEq

/-- An append-only yield observation row (YieldData). -/
structure YieldEntry where
  strategy_id : Int
  apy : Rat
  tvl : Int
  network : String
  deriving Repr, DecidableEq

/-- Python `int()` applied to a rational: truncation toward zero. -/
def pyTrunc (q : Rat) : Int :=
  if 0 ≤ q then ⌊q⌋ else -⌊-q⌋

/-! ## Configuration (app/config.py) -/

def MIN_AMOUNT_THRESHOLD : Int := 1000000000000000000

def MAX_AMOUNT_THRESHOLD : Int := 1000000000000000000000

/-! ## YieldOptimizer._modern_portfolio_theory (yield_optimizer.py lines 231-293)

A candidate record as assembled by _calculate_optimal_allocations
(lines 205-215): the requested weight from the caller is copied into the
record verbatim; expected_yield comes from predict_yield and risk_score
from the strategy row. -/

structure StratData where
  strategy_id : Int
  name : String
  type : String
  contract_address : String
  network : String
  expected_yield : Rat
  risk_score : Rat
  tvl : Int
  weight : Rat
  deriving Repr, DecidableEq

/-- An allocation record as emitted by _modern_portfolio_theory
(lines 262-272): note the weight field holds the computed weight, and the
tvl and requested-weight fields of the candidate are not copied. -/
structure AllocOut where
  strategy_id : Int
  name : String
  type : String
  contract_address : String
  network : String
  amount : Int
  weight : Rat
  expected_yield : Rat
  risk_score : Rat
  deriving Repr, DecidableEq

/-- Lines 250-253: sharpe = expected_yield / (risk_score + 1e-6), then the
risk-tolerance blend sharpe * (1 - rt) + expected_yield * rt. -/
def blendedScore (rt : Rat) (s : StratData) : Rat :=
  (s.expected_yield / (s.risk_score + 1 / 1000000)) * (1 - rt)
    + s.expected_yield * rt

/-- Line 261-272: one allocation entry, amount = int(total_amount * w). -/
def mptAlloc (total : Int) (w : Rat) (s : StratData) : AllocOut :=
  { strategy_id := s.strategy_id
    name := s.name
    type := s.type
    contract_address := s.contract_address
    network := s.network
    amount := pyTrunc ((total : Rat) * w)
    weight := w
    expected_yield := s.expected_yield
    risk_score := s.risk_score }

/-- Lines 238-293.  Weights are the blended scores normalized by their sum
(line 256).  When the sum is zero, numpy produces NaN (or infinite) weights
and the int() conversion on line 261 raises, so control reaches the
except-handler on line 276 which returns the equal-weight fallback
(lines 279-293) with weight 1/n; that degenerate branch is modelled
explicitly by the zero test on the sum. -/
def modern_portfolio_theory (sd : List StratData) (total : Int) (rt : Rat) :
    List AllocOut :=
  let scores := sd.map (blendedScore rt)
  let T := scores.sum
  if T = 0 then
    let ew : Rat := 1 / (sd.length : Rat)
    sd.map (mptAlloc total ew)
  else
    sd.map (fun s => mptAlloc total (blendedScore rt s / T) s)

/-! ## YieldOptimizer._calculate_optimal_allocations (lines 182-229)

predict_yield (lines 81-118) consults the ML model or falls back to the
stored apy; it reads only the strategy id, the amount and the network, so
it is abstracted by a function parameter `py`. -/

structure ReqStrategy where
  strategy_id : Int
  weight : Rat
  deriving Repr, DecidableEq

/-- Lines 192-215: assemble the candidate record for one requested
strategy; a request whose id matches no fetched strategy row is skipped
(line 195-196). -/
def candidateFor (py : Int → Int → String → Rat) (total : Int)
    (dbs : List Strategy) (r : ReqStrategy) : Option StratData :=
  match dbs.find? (fun s => s.id == r.strategy_id) with
  | none => none
  | some s =>
      some { strategy_id := r.strategy_id
             name := s.name
             type := s.type
             contract_address := s.contract_address
             network := s.network
             expected_yield := py r.strategy_id total s.network
             risk_score := s.risk_score
             tvl := s.tvl
             weight := r.weight }

/-- Lines 190-225: build the candidate list, fail when it is empty, then
apply modern portfolio theory.  A raised ValueError is modelled as the
error branch. -/
def calculate_optimal_allocations (py : Int → Int → String → Rat)
    (total : Int) (reqs : List ReqStrategy) (dbs : List Strategy)
    (rt : Rat) : Except String (List AllocOut) :=
  let sd := reqs.filterMap (candidateFor py total dbs)
  if sd.isEmpty then Except.error "No valid strategies found"
  else Except.ok (modern_portfolio_theory sd total rt)

/-! ## YieldOptimizer.optimize_allocations (lines 120-180) and the
/yield/optimize route (yield_routes.py lines 129-186) -/

/-- A Python ValueError maps to HTTP 400 (yield_routes.py line 182-183);
every other exception maps to HTTP 500 (lines 184-186).  HTTPException
with status 400 raised by the router itself is the same client-error
class. -/
inductive OptError where
  | validation : String → OptError
  | internal : String → OptError
  deriving Repr, DecidableEq

/-- Lines 128-148 of yield_optimizer.py: the amount-bound checks, the
active-strategy fetch and the allocation computation.  The database rows
whose id is among the requested ids and which are active are selected
(lines 137-140).  On the error path nothing is added to the session, so
no OptimizationResult row is persisted. -/
def optimize_allocations (py : Int → Int → String → Rat) (total : Int)
    (reqs : List ReqStrategy) (rt : Rat) (dbs : List Strategy) :
    Except OptError (List AllocOut) :=
  if total < MIN_AMOUNT_THRESHOLD then
    Except.error (OptError.validation "Amount below minimum threshold")
  else if MAX_AMOUNT_THRESHOLD < total then
    Except.error (OptError.validation "Amount above maximum threshold")
  else
    let dbActive := dbs.filter (fun s =>
      s.is_active && (reqs.map ReqStrategy.strategy_id).contains s.id)
    if dbActive.isEmpty then
      Except.error (OptError.validation "No active strategies found")
    else
      match calculate_optimal_allocations py total reqs dbActive rt with
      | Except.error m => Except.error (OptError.validation m)
      | Except.ok a => Except.ok a

structure OptimizeRequest where
  total_amount : Int
  strategies : List ReqStrategy
  risk_tolerance : Rat
  max_slippage : Rat
  deriving Repr, DecidableEq

/-- The Python exceptions the optimize route can raise inside its try
block. -/
inductive PyExc where
  | httpException : Int → String → PyExc
  | valueError : String → PyExc
  | typeError : String → PyExc
  deriving Repr, DecidableEq

/-- The body of the /yield/optimize handler inside its try block
(yield_routes.py lines 137-180): the two explicit request checks on
lines 144-148 raise HTTPException(400); any request passing them reaches
line 160, which invokes optimizer.optimize_allocations(user_id=..., ...)
— but the method signature (yield_optimizer.py line 120) declares no
user_id parameter, so the call itself raises TypeError and the service
code, including its amount-bound ValueError checks, is never entered. -/
def optimize_yield_body (req : OptimizeRequest) :
    Except PyExc (List AllocOut) :=
  if req.strategies.length = 0 then
    Except.error (PyExc.httpException 400 "At least one strategy required")
  else if 1 < (req.strategies.map ReqStrategy.weight).sum then
    Except.error (PyExc.httpException 400 "Total weight cannot exceed 1.0")
  else
    Except.error (PyExc.typeError
      "optimize_allocations got an unexpected keyword argument user_id")

/-- The exception handling of the route (yield_routes.py lines 182-186):
except ValueError becomes a 400 client error; every other exception is
caught by the generic except Exception and returned as a 500 internal
error.  Unlike the strategy routes in the same file, this handler has no
separate except-HTTPException clause that re-raises, and HTTPException is
not a ValueError, so even the HTTPException(400) rejections raised by the
route body itself are converted to the 500 internal error. -/
def optimize_yield (req : OptimizeRequest) : Except OptError (List AllocOut) :=
  match optimize_yield_body req with
  | Except.ok a => Except.ok a
  | Except.error (PyExc.valueError m) => Except.error (OptError.validation m)
  | Except.error _ => Except.error (OptError.internal "Internal server error")

/-! ## YieldOptimizer.rebalance_portfolio (lines 345-384) -/

structure Alloc where
  strategy_id : Int
  amount : Int
  deriving Repr, DecidableEq

structure RebalanceAction where
  strategy_id : Int
  action : String
  amount : Int
  current_amount : Int
  target_amount : Int
  deriving Repr, DecidableEq

/-- Line 370: the fixed dust threshold, 0.001 ETH in wei. -/
def dustThreshold : Int := 1000000000000000

/-- Lines 356-357 build dicts keyed by strategy_id; a duplicated id keeps
the last entry.  Lines 363-364 read the amount with default 0. -/
def mapAmount (l : List Alloc) (sid : Int) : Int :=
  match l.reverse.find? (fun a => a.strategy_id == sid) with
  | some a => a.amount
  | none => 0

/-- Line 360: the union of the strategy ids of both sides. -/
def unionStrategyIds (cur tgt : List Alloc) : List Int :=
  ((cur.map Alloc.strategy_id) ++ (tgt.map Alloc.strategy_id)).dedup

/-- Lines 362-380: emit one action per strategy whose absolute difference
exceeds the dust threshold. -/
def rebalance_portfolio (cur tgt : List Alloc) : List RebalanceAction :=
  (unionStrategyIds cur tgt).filterMap (fun sid =>
    let ca := mapAmount cur sid
    let ta := mapAmount tgt sid
    let d := ta - ca
    if dustThreshold < |d| then
      some { strategy_id := sid
             action := if 0 < d then "deposit" else "withdraw"
             amount := |d|
             current_amount := ca
             target_amount := ta }
    else none)

/-! ## YieldDataService (yield_data_service.py) -/

/-- The common observation shape produced by the per-source fetchers
(lines 101-108 and analogues).  The fetchers never set a contract
address, and _update_database_yields reads it with default empty string
(line 323); the timestamp and metadata entries carry no logic here and
are elided. -/
structure Observation where
  protocol : String
  symbol : String
  apy : Rat
  tvl : Int
  network : String
  contract_address : String
  deriving Repr, DecidableEq

/-- A Python dict of observations keyed by source key, as an association
list in insertion order. -/
abbrev YieldMap := List (String × Observation)

/-- dict assignment: overwrite the value of an existing key in place,
else append. -/
def dictInsert (d : YieldMap) (k : String) (v : Observation) : YieldMap :=
  if d.any (fun p => p.1 == k) then
    d.map (fun p => if p.1 == k then (k, v) else p)
  else d ++ [(k, v)]

/-- dict.update of one fetched mapping into the accumulator (line 68). -/
def dictUpdate (d e : YieldMap) : YieldMap :=
  e.foldl (fun acc p => dictInsert acc p.1 p.2) d

/-- Lines 64-70: merge the gathered per-source results, keeping dict
results and skipping exceptions (which are only logged). -/
def processResults (results : List (Except String YieldMap)) : YieldMap :=
  results.foldl
    (fun acc r =>
      match r with
      | Except.ok m => dictUpdate acc m
      | Except.error _ => acc)
    []

/-- The merge of a list of per-source mappings, in order. -/
def mergeMaps (l : List YieldMap) : YieldMap :=
  l.foldl dictUpdate []

/-- YieldDataService._calculate_risk_score (lines 364-397): baseline 0.5,
protocol, TVL and APY adjustments, clamp to the unit interval.  The
function body is total, so the except-handler returning 0.5 (line 397) is
unreachable. -/
def calculate_risk_score (protocol : String) (tvl : Int) (apy : Rat) : Rat :=
  let base : Rat := 1 / 2
  let r1 :=
    if protocol = "compound" ∨ protocol = "aave" then base - 2 / 10
    else if protocol = "curve" then base - 1 / 10
    else if protocol = "uniswap_v3" then base + 1 / 10
    else base
  let r2 :=
    if 1000000000000000000000000 < tvl then r1 - 1 / 10
    else if tvl < 10000000000000000000000 then r1 + 1 / 10
    else r1
  let r3 :=
    if 2 / 10 < apy then r2 + 2 / 10
    else if apy < 5 / 100 then r2 - 1 / 10
    else r2
  max 0 (min 1 r3)

/-- The database state the data service touches: strategy rows, yield
observation rows, and the id the next created strategy row receives. -/
structure DbState where
  strategies : List Strategy
  yieldData : List YieldEntry
  nextId : Int
  deriving Repr, DecidableEq

/-- Lines 320-355, one loop iteration: look the strategy up by contract
address and network; create it when absent (with risk score from
calculate_risk_score and the next fresh id); overwrite its live apy and
tvl; append a new YieldData row. -/
def upsertObservation (st : DbState) (kv : String × Observation) : DbState :=
  let data := kv.2
  match st.strategies.find? (fun s =>
      s.contract_address == data.contract_address
        && s.network == data.network) with
  | some s =>
      { st with
        strategies := st.strategies.map (fun t =>
          if t.id == s.id then { t with apy := data.apy, tvl := data.tvl }
          else t)
        yieldData := st.yieldData ++
          [{ strategy_id := s.id, apy := data.apy, tvl := data.tvl,
             network := data.network }] }
  | none =>
      let created : Strategy :=
        { id := st.nextId
          name := data.symbol
          type := data.protocol
          contract_address := data.contract_address
          network := data.network
          apy := data.apy
          tvl := data.tvl
          risk_score := calculate_risk_score data.protocol data.tvl data.apy
          is_active := true }
      { strategies := st.strategies ++ [created]
        yieldData := st.yieldData ++
          [{ strategy_id := created.id, apy := data.apy, tvl := data.tvl,
             network := data.network }]
        nextId := st.nextId + 1 }

/-- YieldDataService._update_database_yields (lines 317-362).  The dbOk
flag models whether the underlying database accepts the writes of this
operation.  On failure the except-handler (lines 360-362) logs and rolls
the session back — the state reverts to its pre-call value — and the
exception is swallowed: the method returns normally either way. -/
def update_database_yields (dbOk : Bool) (st : DbState) (ym : YieldMap) :
    DbState :=
  if dbOk then ym.foldl upsertObservation st else st

/-- YieldDataService.fetch_all_yield_data (lines 51-82): gather the five
per-source fetches with return_exceptions=True, merge the dict results,
cache (best effort, own error handling), write to the database (own
error handling, see update_database_yields), and return the merged
mapping.  No step can raise, so the outer except-handler returning an
empty dict (lines 80-82) is unreachable and the call always returns
normally. -/
def fetch_all_yield_data (results : List (Except String YieldMap))
    (dbOk : Bool) (st : DbState) : Except String (YieldMap × DbState) :=
  let allYields := processResults results
  Except.ok (allYields, update_database_yields dbOk st allYields)

/-! ## Helper lemmas about the portfolio computation -/

lemma pyTrunc_eq_floor (q : Rat) (h : 0 ≤ q) : pyTrunc q = ⌊q⌋ :=
  if_pos h

lemma sum_map_div (l : List Rat) (c : Rat) :
    (l.map (fun x => x / c)).sum = l.sum / c := by
  induction l with
  | nil => simp
  | cons a t ih => simp [ih, add_div]

lemma sum_map_const {α : Type} (l : List α) (c : Rat) :
    (l.map (fun _ => c)).sum = (l.length : Rat) * c := by
  induction l with
  | nil => simp
  | cons a t ih =>
      simp only [List.map_cons, List.sum_cons, ih, List.length_cons]
      push_cast
      ring

lemma cast_list_sum {α : Type} (l : List α) (f : α → Int) :
    (((l.map f).sum : Int) : Rat) = (l.map (fun a => ((f a : Int) : Rat))).sum := by
  induction l with
  | nil => simp
  | cons a t ih => simp [ih]

lemma blendedScore_nonneg (rt : Rat) (s : StratData)
    (hy : 0 ≤ s.expected_yield) (hr : 0 ≤ s.risk_score)
    (h0 : 0 ≤ rt) (h1 : rt ≤ 1) : 0 ≤ blendedScore rt s := by
  have hden : (0 : Rat) < s.risk_score + 1 / 1000000 := by
    have : (0 : Rat) < 1 / 1000000 := by norm_num
    linarith
  refine add_nonneg (mul_nonneg (div_nonneg hy hden.le) (by linarith))
    (mul_nonneg hy h0)

/-- The two shapes modern_portfolio_theory can return: the equal-weight
fallback when the score sum is zero, and score-proportional weights
otherwise. -/
lemma mpt_cases (sd : List StratData) (total : Int) (rt : Rat) :
    (modern_portfolio_theory sd total rt
        = sd.map (fun s => mptAlloc total (1 / (sd.length : Rat)) s)
      ∧ (sd.map (blendedScore rt)).sum = 0)
  ∨ (modern_portfolio_theory sd total rt
        = sd.map (fun s =>
            mptAlloc total (blendedScore rt s / (sd.map (blendedScore rt)).sum) s)
      ∧ (sd.map (blendedScore rt)).sum ≠ 0) := by
  by_cases h : (sd.map (blendedScore rt)).sum = 0
  · exact Or.inl ⟨by simp [modern_portfolio_theory, h], h⟩
  · exact Or.inr ⟨by simp [modern_portfolio_theory, h], h⟩

/-- Facts about one mapped allocation family for an arbitrary weight
assignment. -/
lemma mapped_alloc_facts (sd : List StratData) (total : Int)
    (w : StratData → Rat) (htot : 0 ≤ total) (hw : ∀ s ∈ sd, 0 ≤ w s) :
    (∀ a ∈ sd.map (fun s => mptAlloc total (w s) s),
        0 ≤ a.weight ∧ a.amount = ⌊(total : Rat) * a.weight⌋) ∧
    ((sd.map (fun s => mptAlloc total (w s) s)).map AllocOut.weight).sum
        = (sd.map w).sum ∧
    (((sd.map (fun s => mptAlloc total (w s) s)).map AllocOut.amount).sum : Rat)
        ≤ (total : Rat) * (sd.map w).sum := by
  have htotQ : (0 : Rat) ≤ (total : Rat) := by exact_mod_cast htot
  refine ⟨?_, ?_, ?_⟩
  · intro a ha
    obtain ⟨s, hs, rfl⟩ := List.mem_map.mp ha
    refine ⟨hw s hs, ?_⟩
    show pyTrunc ((total : Rat) * w s) = ⌊(total : Rat) * w s⌋
    exact pyTrunc_eq_floor _ (mul_nonneg htotQ (hw s hs))
  · rw [List.map_map]
    rfl
  · rw [List.map_map]
    have h1 : ((sd.map (AllocOut.amount ∘ fun s => mptAlloc total (w s) s)).sum : Rat)
        = (sd.map (fun s => ((pyTrunc ((total : Rat) * w s) : Int) : Rat))).sum := by
      rw [cast_list_sum]
      rfl
    rw [h1]
    have h2 : (sd.map (fun s => ((pyTrunc ((total : Rat) * w s) : Int) : Rat))).sum
        ≤ (sd.map (fun s => (total : Rat) * w s)).sum := by
      apply List.sum_le_sum
      intro s hs
      rw [pyTrunc_eq_floor _ (mul_nonneg htotQ (hw s hs))]
      exact Int.floor_le _
    have h3 : (sd.map (fun s => (total : Rat) * w s)).sum
        = (total : Rat) * (sd.map w).sum := by
      have := List.sum_map_mul_left sd w ((total : Rat))
      simpa using this
    rw [h3] at h2
    exact h2

/-- The combined core fact: under non-degenerate hypotheses the emitted
weights are non-negative and sum to exactly one, every amount is the
floor of total times its weight, and the amounts sum to at most the
total. -/
lemma mpt_main (sd : List StratData) (total : Int) (rt : Rat)
    (hne : sd ≠ []) (htot : 0 ≤ total)
    (hy : ∀ s ∈ sd, 0 ≤ s.expected_yield)
    (hr : ∀ s ∈ sd, 0 ≤ s.risk_score)
    (hrt0 : 0 ≤ rt) (hrt1 : rt ≤ 1) :
    (∀ a ∈ modern_portfolio_theory sd total rt,
        0 ≤ a.weight ∧ a.amount = ⌊(total : Rat) * a.weight⌋) ∧
    ((modern_portfolio_theory sd total rt).map AllocOut.weight).sum = 1 ∧
    ((modern_portfolio_theory sd total rt).map AllocOut.amount).sum ≤ total := by
  have hlen : (sd.length : Rat) ≠ 0 := by
    have : sd.length ≠ 0 := by simpa using hne
    exact_mod_cast this
  rcases mpt_cases sd total rt with ⟨heq, hT⟩ | ⟨heq, hT⟩
  · -- degenerate branch: equal weights 1/n
    have hw : ∀ s ∈ sd, 0 ≤ (fun _ : StratData => 1 / (sd.length : Rat)) s := by
      intro s _
      positivity
    obtain ⟨hmem, hwsum, hasum⟩ := mapped_alloc_facts sd total _ htot hw
    have hsum1 : (sd.map (fun _ : StratData => 1 / (sd.length : Rat))).sum = 1 := by
      rw [sum_map_const]
      field_simp
    rw [heq]
    refine ⟨hmem, by rw [hwsum, hsum1], ?_⟩
    rw [hsum1, mul_one] at hasum
    exact_mod_cast hasum
  · -- normalizing branch: weights score / T
    set T := (sd.map (blendedScore rt)).sum with hTdef
    have hTnn : 0 ≤ T := by
      apply List.sum_nonneg
      intro x hx
      obtain ⟨s, hs, rfl⟩ := List.mem_map.mp hx
      exact blendedScore_nonneg rt s (hy s hs) (hr s hs) hrt0 hrt1
    have hTpos : 0 < T := lt_of_le_of_ne hTnn (Ne.symm hT)
    have hw : ∀ s ∈ sd, 0 ≤ (fun s => blendedScore rt s / T) s := by
      intro s hs
      exact div_nonneg
        (blendedScore_nonneg rt s (hy s hs) (hr s hs) hrt0 hrt1) hTnn
    obtain ⟨hmem, hwsum, hasum⟩ := mapped_alloc_facts sd total _ htot hw
    have hsum1 : (sd.map (fun s => blendedScore rt s / T)).sum = 1 := by
      have hmm : sd.map (fun s => blendedScore rt s / T)
          = (sd.map (blendedScore rt)).map (fun x => x / T) := by
        rw [List.map_map]
        rfl
      rw [hmm, sum_map_div, ← hTdef, div_self hT]
    rw [heq]
    refine ⟨hmem, by rw [hwsum, hsum1], ?_⟩
    rw [hsum1, mul_one] at hasum
    exact_mod_cast hasum

/-! ## Demo data used by the witness theorems -/

def demoSD : List StratData :=
  [{ strategy_id := 1, name := "Compound USDC", type := "compound",
     contract_address := "0xa", network := "ethereum",
     expected_yield := 1 / 20, risk_score := 3 / 10, tvl := 0,
     weight := 4 / 10 },
   { strategy_id := 2, name := "Uniswap V3 ETH-USDC", type := "uniswap_v3",
     contract_address := "0xb", network := "ethereum",
     expected_yield := 2 / 25, risk_score := 3 / 5, tvl := 0,
     weight := 6 / 10 }]

def zeroSD : List StratData :=
  [{ strategy_id := 1, name := "Compound USDC", type := "compound",
     contract_address := "0xa", network := "ethereum",
     expected_yield := 0, risk_score := 3 / 10, tvl := 0, weight := 4 / 10 },
   { strategy_id := 2, name := "Uniswap V3 ETH-USDC", type := "uniswap_v3",
     contract_address := "0xb", network := "ethereum",
     expected_yield := 0, risk_score := 3 / 5, tvl := 0, weight := 6 / 10 }]

/-! ## Claim theorems C1, C2, C9 -/

/-- Claim C1: for every candidate set that reaches the portfolio
computation (non-empty, yields and risk scores non-negative, risk
tolerance in the unit interval), the weight vector produced by
_modern_portfolio_theory has every weight non-negative and the weights
sum to 1.0 within a tolerance of 1e-6 — covering the degenerate
all-zero-score case through the equal-weight fallback. -/
theorem optimize_weights_nonneg_sum_one (sd : List StratData) (total : Int)
    (rt : Rat) (hne : sd ≠ []) (htot : 0 ≤ total)
    (hy : ∀ s ∈ sd, 0 ≤ s.expected_yield)
    (hr : ∀ s ∈ sd, 0 ≤ s.risk_score)
    (hrt0 : 0 ≤ rt) (hrt1 : rt ≤ 1) :
    (∀ a ∈ modern_portfolio_theory sd total rt, 0 ≤ a.weight) ∧
    |((modern_portfolio_theory sd total rt).map AllocOut.weight).sum - 1|
      ≤ 1 / 1000000 := by
  obtain ⟨hmem, hsum, _⟩ := mpt_main sd total rt hne htot hy hr hrt0 hrt1
  refine ⟨fun a ha => (hmem a ha).1, ?_⟩
  rw [hsum]
  norm_num

theorem optimize_weights_nonneg_sum_one_witness :
    (demoSD ≠ [] ∧ (0 : Int) ≤ 1000000000000000000000) ∧
    ((∀ a ∈ modern_portfolio_theory demoSD 1000000000000000000000 (1 / 2),
        0 ≤ a.weight) ∧
     |((modern_portfolio_theory demoSD 1000000000000000000000 (1 / 2)).map
        AllocOut.weight).sum - 1| ≤ 1 / 1000000) :=
  ⟨⟨by decide, by decide⟩,
   optimize_weights_nonneg_sum_one demoSD 1000000000000000000000 (1 / 2)
     (by decide) (by decide)
     (by intro s hs; simp only [demoSD, List.mem_cons, List.not_mem_nil,
           or_false] at hs; rcases hs with rfl | rfl <;> norm_num)
     (by intro s hs; simp only [demoSD, List.mem_cons, List.not_mem_nil,
           or_false] at hs; rcases hs with rfl | rfl <;> norm_num)
     (by norm_num) (by norm_num)⟩

/-- Claim C2: when every blended score is zero the normalizing
denominator is zero, the weight computation fails, and optimize falls
back to equal weighting: every candidate receives weight 1/n and amount
floor(total_amount / n). -/
theorem optimize_equal_weight_fallback (sd : List StratData) (total : Int)
    (rt : Rat) (_hne : sd ≠ []) (htot : 0 ≤ total)
    (hz : ∀ s ∈ sd, blendedScore rt s = 0) :
    modern_portfolio_theory sd total rt
      = sd.map (mptAlloc total (1 / (sd.length : Rat))) ∧
    ∀ a ∈ modern_portfolio_theory sd total rt,
      a.weight = 1 / (sd.length : Rat) ∧
      a.amount = ⌊(total : Rat) / (sd.length : Rat)⌋ := by
  have htotQ : (0 : Rat) ≤ (total : Rat) := by exact_mod_cast htot
  have hT : (sd.map (blendedScore rt)).sum = 0 := by
    apply List.sum_eq_zero
    intro x hx
    obtain ⟨s, hs, rfl⟩ := List.mem_map.mp hx
    exact hz s hs
  have heq : modern_portfolio_theory sd total rt
      = sd.map (mptAlloc total (1 / (sd.length : Rat))) := by
    simp [modern_portfolio_theory, hT]
  refine ⟨heq, ?_⟩
  intro a ha
  rw [heq] at ha
  obtain ⟨s, _, rfl⟩ := List.mem_map.mp ha
  have hnn : (0 : Rat) ≤ 1 / (sd.length : Rat) := by positivity
  constructor
  · rfl
  · show pyTrunc ((total : Rat) * (1 / (sd.length : Rat)))
      = ⌊(total : Rat) / (sd.length : Rat)⌋
    rw [pyTrunc_eq_floor _ (mul_nonneg htotQ hnn), mul_one_div]

theorem optimize_equal_weight_fallback_witness :
    (zeroSD ≠ [] ∧ (0 : Int) ≤ 10000000000000000000 ∧
      (∀ s ∈ zeroSD, blendedScore (1 / 2) s = 0)) ∧
    (modern_portfolio_theory zeroSD 10000000000000000000 (1 / 2)
        = zeroSD.map (mptAlloc 10000000000000000000 (1 / (zeroSD.length : Rat))) ∧
      ∀ a ∈ modern_portfolio_theory zeroSD 10000000000000000000 (1 / 2),
        a.weight = 1 / (zeroSD.length : Rat) ∧
        a.amount = ⌊((10000000000000000000 : Int) : Rat) / (zeroSD.length : Rat)⌋) :=
  ⟨⟨by decide, by decide,
    by intro s hs; simp only [zeroSD, List.mem_cons, List.not_mem_nil,
         or_false] at hs; rcases hs with rfl | rfl <;> norm_num [blendedScore]⟩,
   optimize_equal_weight_fallback zeroSD 10000000000000000000 (1 / 2)
     (by decide) (by decide)
     (by intro s hs; simp only [zeroSD, List.mem_cons, List.not_mem_nil,
          or_false] at hs; rcases hs with rfl | rfl <;> norm_num [blendedScore])⟩

/-- Claim C9: each allocation amount equals floor(total_amount * weight)
in integer units, the rounding remainder is never redistributed (every
amount is exactly that floor), and the amounts sum to at most
total_amount; holds at any magnitude, including 10^21, since the model
uses exact arithmetic. -/
theorem optimize_amounts_floor_and_bounded (sd : List StratData)
    (total : Int) (rt : Rat) (hne : sd ≠ []) (htot : 0 ≤ total)
    (hy : ∀ s ∈ sd, 0 ≤ s.expected_yield)
    (hr : ∀ s ∈ sd, 0 ≤ s.risk_score)
    (hrt0 : 0 ≤ rt) (hrt1 : rt ≤ 1) :
    (∀ a ∈ modern_portfolio_theory sd total rt,
        a.amount = ⌊(total : Rat) * a.weight⌋) ∧
    ((modern_portfolio_theory sd total rt).map AllocOut.amount).sum ≤ total := by
  obtain ⟨hmem, _, hbound⟩ := mpt_main sd total rt hne htot hy hr hrt0 hrt1
  exact ⟨fun a ha => (hmem a ha).2, hbound⟩

theorem optimize_amounts_floor_and_bounded_witness :
    (demoSD ≠ [] ∧ (0 : Int) ≤ 1000000000000000000000) ∧
    ((∀ a ∈ modern_portfolio_theory demoSD 1000000000000000000000 (1 / 2),
        a.amount = ⌊((1000000000000000000000 : Int) : Rat) * a.weight⌋) ∧
     ((modern_portfolio_theory demoSD 1000000000000000000000 (1 / 2)).map
        AllocOut.amount).sum ≤ 1000000000000000000000) :=
  ⟨⟨by decide, by decide⟩,
   optimize_amounts_floor_and_bounded demoSD 1000000000000000000000 (1 / 2)
     (by decide) (by decide)
     (by intro s hs; simp only [demoSD, List.mem_cons, List.not_mem_nil,
           or_false] at hs; rcases hs with rfl | rfl <;> norm_num)
     (by intro s hs; simp only [demoSD, List.mem_cons, List.not_mem_nil,
           or_false] at hs; rcases hs with rfl | rfl <;> norm_num)
     (by norm_num) (by norm_num)⟩

/-! ## Claim C6: the risk scorer -/

/-- Reference definition of the risk score, written to the wording of the
specification: a 0.5 baseline plus independent protocol, TVL and APY
deltas, clamped to the unit interval. -/
def riskScoreSpec (protocol : String) (tvl : Int) (apy : Rat) : Rat :=
  let protoDelta : Rat :=
    if protocol = "compound" ∨ protocol = "aave" then -(2 / 10)
    else if protocol = "curve" then -(1 / 10)
    else if protocol = "uniswap_v3" then 1 / 10
    else 0
  let tvlDelta : Rat :=
    if 1000000000000000000000000 < tvl then -(1 / 10)
    else if tvl < 10000000000000000000000 then 1 / 10
    else 0
  let apyDelta : Rat :=
    if 2 / 10 < apy then 2 / 10
    else if apy < 5 / 100 then -(1 / 10)
    else 0
  max 0 (min 1 (1 / 2 + protoDelta + tvlDelta + apyDelta))

/-- Claim C6: for every input the implemented risk score agrees with the
reference definition of the claim, and the result always lies in [0,1].
Determinism holds because the embedded function is pure, and the
except-handler returning the 0.5 baseline is unreachable since every
operation in the body is total. -/
theorem risk_score_correct (protocol : String) (tvl : Int) (apy : Rat) :
    calculate_risk_score protocol tvl apy = riskScoreSpec protocol tvl apy ∧
    0 ≤ calculate_risk_score protocol tvl apy ∧
    calculate_risk_score protocol tvl apy ≤ 1 := by
  refine ⟨?_, le_max_left _ _, max_le (by norm_num) (min_le_left _ _)⟩
  simp only [calculate_risk_score, riskScoreSpec]
  split_ifs <;> ring_nf

/-! ## Claims C7 and C8: the rebalance calculator -/

/-- Claim C7: an action is emitted exactly for the strategies in the
union of the two sides whose absolute difference strictly exceeds the
dust threshold, and the action is a deposit for a positive difference,
a withdrawal for a negative one, with amount equal to the absolute
difference; rebalancing a portfolio against itself emits nothing, and
when every difference is at most the threshold nothing is emitted. -/
theorem rebalance_characterization (cur tgt : List Alloc)
    (a : RebalanceAction) :
    (a ∈ rebalance_portfolio cur tgt ↔
      a.strategy_id ∈ unionStrategyIds cur tgt ∧
      dustThreshold <
        |mapAmount tgt a.strategy_id - mapAmount cur a.strategy_id| ∧
      a = { strategy_id := a.strategy_id
            action :=
              if 0 < mapAmount tgt a.strategy_id - mapAmount cur a.strategy_id
              then "deposit" else "withdraw"
            amount := |mapAmount tgt a.strategy_id - mapAmount cur a.strategy_id|
            current_amount := mapAmount cur a.strategy_id
            target_amount := mapAmount tgt a.strategy_id }) ∧
    rebalance_portfolio cur cur = [] ∧
    ((∀ sid ∈ unionStrategyIds cur tgt,
        |mapAmount tgt sid - mapAmount cur sid| ≤ dustThreshold) →
      rebalance_portfolio cur tgt = []) := by
  refine ⟨?_, ?_, ?_⟩
  · constructor
    · intro ha
      obtain ⟨sid, hsid, heq⟩ := List.mem_filterMap.mp ha
      by_cases hd : dustThreshold < |mapAmount tgt sid - mapAmount cur sid|
      · rw [if_pos hd] at heq
        obtain rfl := Option.some.inj heq
        exact ⟨hsid, hd, rfl⟩
      · rw [if_neg hd] at heq
        exact absurd heq (Option.noConfusion)
    · rintro ⟨hsid, hd, hform⟩
      apply List.mem_filterMap.mpr
      refine ⟨a.strategy_id, hsid, ?_⟩
      rw [if_pos hd]
      exact congrArg some hform.symm
  · apply List.filterMap_eq_nil_iff.mpr
    intro sid _
    have hz : ¬ dustThreshold < |mapAmount cur sid - mapAmount cur sid| := by
      rw [sub_self, abs_zero]
      norm_num [dustThreshold]
    exact if_neg hz
  · intro hsmall
    apply List.filterMap_eq_nil_iff.mpr
    intro sid hsid
    exact if_neg (not_lt.mpr (hsmall sid hsid))

theorem rebalance_characterization_witness :
    rebalance_portfolio
        [{ strategy_id := 1, amount := 5000000000000000000 }]
        [{ strategy_id := 1, amount := 5000000000000000000 }] = [] :=
  (rebalance_characterization
    [{ strategy_id := 1, amount := 5000000000000000000 }]
    [{ strategy_id := 1, amount := 5000000000000000000 }]
    { strategy_id := 0, action := "", amount := 0,
      current_amount := 0, target_amount := 0 }).2.1

/-- Claim C8 is false on the code: a target amount of 100 base units is
far below the dust threshold of 10^15 (0.001 ETH in wei), so
rebalance(empty, one target of 100) emits no action at all rather than a
single deposit of 100. -/
theorem rebalance_small_deposit_counterexample :
    rebalance_portfolio [] [{ strategy_id := 1, amount := 100 }] = [] ∧
    rebalance_portfolio [] [{ strategy_id := 1, amount := 100 }] ≠
      [{ strategy_id := 1, action := "deposit", amount := 100,
         current_amount := 0, target_amount := 100 }] := by
  constructor
  · decide
  · decide

/-- Claim C8 amended: starting from an empty current allocation, a single
target whose amount exceeds the dust threshold — for example 100 ETH,
i.e. 10^20 wei — produces exactly one deposit action for that strategy
with the full target amount. -/
theorem rebalance_single_deposit :
    rebalance_portfolio []
        [{ strategy_id := 1, amount := 100000000000000000000 }] =
      [{ strategy_id := 1, action := "deposit",
         amount := 100000000000000000000,
         current_amount := 0, target_amount := 100000000000000000000 }] := by
  decide

/-! ## Claims C4 and C5: the aggregate fetch -/

lemma foldl_skip_errors (results : List (Except String YieldMap))
    (acc : YieldMap) :
    results.foldl
        (fun acc r =>
          match r with
          | Except.ok m => dictUpdate acc m
          | Except.error _ => acc)
        acc
      = (results.filterMap Except.toOption).foldl dictUpdate acc := by
  induction results generalizing acc with
  | nil => rfl
  | cons r t ih =>
      cases r with
      | ok m => simp only [List.foldl_cons, List.filterMap_cons,
          Except.toOption, ih]
      | error e => simp only [List.foldl_cons, List.filterMap_cons,
          Except.toOption, ih]

lemma processResults_eq_mergeMaps (results : List (Except String YieldMap)) :
    processResults results = mergeMaps (results.filterMap Except.toOption) :=
  foldl_skip_errors results []

/-- Claim C4: the aggregate fetch never propagates an exception — it
always returns a mapping — and the mapping is exactly the merge of the
maps of the succeeding sources, the failing sources being skipped; in
particular, with five sources of which the second fails, the merged data
of the other four is returned. -/
theorem fetch_all_tolerates_partial_failure
    (results : List (Except String YieldMap)) (dbOk : Bool) (st : DbState) :
    (∃ st2, fetch_all_yield_data results dbOk st =
        Except.ok (mergeMaps (results.filterMap Except.toOption), st2)) ∧
    (∀ (m1 m2 m3 m4 : YieldMap) (e : String),
      ∃ st2, fetch_all_yield_data
          [Except.ok m1, Except.error e, Except.ok m2, Except.ok m3,
           Except.ok m4] dbOk st
        = Except.ok (mergeMaps [m1, m2, m3, m4], st2)) := by
  constructor
  · exact ⟨update_database_yields dbOk st (processResults results),
      by simp only [fetch_all_yield_data, processResults_eq_mergeMaps]⟩
  · intro m1 m2 m3 m4 e
    refine ⟨update_database_yields dbOk st
      (processResults [Except.ok m1, Except.error e, Except.ok m2,
        Except.ok m3, Except.ok m4]), ?_⟩
    simp only [fetch_all_yield_data, processResults_eq_mergeMaps,
      List.filterMap_cons, Except.toOption, List.filterMap_nil]

def demoObs : Observation :=
  { protocol := "compound", symbol := "USDC", apy := 1 / 20,
    tvl := 5000000000000000000000000, network := "ethereum",
    contract_address := "" }

def demoResults : List (Except String YieldMap) :=
  [Except.ok [("compound_usdc", demoObs)]]

def demoDb : DbState := { strategies := [], yieldData := [], nextId := 1 }

/-- Claim C5 is false on the code: with the database write failing during
the write phase, fetch_all_yield_data still returns ok with the fetched
mapping — the persistence error is logged, the session rolled back, and
nothing propagates to the caller. -/
theorem fetch_all_db_failure_counterexample :
    fetch_all_yield_data demoResults false demoDb =
      Except.ok ([("compound_usdc", demoObs)], demoDb) ∧
    ¬ ∃ e, fetch_all_yield_data demoResults false demoDb = Except.error e := by
  constructor
  · rfl
  · rintro ⟨e, he⟩
    simp only [fetch_all_yield_data] at he
    exact Except.noConfusion he

/-- Claim C5 amended: a database failure during the write phase is
swallowed inside the service — the transaction is rolled back, so the
database state is exactly the pre-call state with no partial writes, and
fetch_all_yield_data still returns the merged fetched data normally
rather than propagating an error. -/
theorem fetch_all_db_failure_swallowed
    (results : List (Except String YieldMap)) (st : DbState) :
    fetch_all_yield_data results false st =
      Except.ok (processResults results, st) ∧
    ∀ e, fetch_all_yield_data results false st ≠ Except.error e := by
  constructor
  · rfl
  · intro e he
    simp only [fetch_all_yield_data] at he
    exact Except.noConfusion he

/-! ## Claim C3: validation of the optimize call -/

def lowAmountReq : OptimizeRequest :=
  { total_amount := 500000000000000000
    strategies := [{ strategy_id := 1, weight := 1 / 2 }]
    risk_tolerance := 1 / 2
    max_slippage := 1 / 20 }

/-- Claim C3 marks a bug in the code.  Each of the four listed cases is
given a typed rejection somewhere in the code — the route body raises
HTTPException(400) for an empty strategy list and for a weight sum above
1.0, and the service classifies an out-of-bounds amount as a ValueError
that the handler would map to a 400 — but none of them surfaces as a
validation error through the endpoint: the generic except clause of the
route swallows its own HTTPException(400)s into a 500 internal error,
and every request passing the two route checks dies in a TypeError (the
route passes a user_id keyword that optimize_allocations does not
declare), also a 500, before the amount checks can run.  The endpoint
therefore never returns a validation error on any path. -/
theorem optimize_validation_bug :
    (∀ (req : OptimizeRequest) (m : String),
      optimize_yield req ≠ Except.error (OptError.validation m)) ∧
    optimize_yield { lowAmountReq with strategies := [] } =
      Except.error (OptError.internal "Internal server error") ∧
    optimize_yield_body { lowAmountReq with strategies := [] } =
      Except.error (PyExc.httpException 400 "At least one strategy required") ∧
    optimize_yield { lowAmountReq with
        total_amount := 2000000000000000000,
        strategies := [{ strategy_id := 1, weight := 6 / 10 },
                       { strategy_id := 2, weight := 6 / 10 }] } =
      Except.error (OptError.internal "Internal server error") ∧
    optimize_yield_body { lowAmountReq with
        total_amount := 2000000000000000000,
        strategies := [{ strategy_id := 1, weight := 6 / 10 },
                       { strategy_id := 2, weight := 6 / 10 }] } =
      Except.error (PyExc.httpException 400 "Total weight cannot exceed 1.0") ∧
    optimize_yield lowAmountReq =
      Except.error (OptError.internal "Internal server error") ∧
    (∀ (py : Int → Int → String → Rat) (dbs : List Strategy),
      optimize_allocations py lowAmountReq.total_amount
          lowAmountReq.strategies lowAmountReq.risk_tolerance dbs
        = Except.error (OptError.validation "Amount below minimum threshold")) ∧
    (∀ (py : Int → Int → String → Rat) (dbs : List Strategy),
      optimize_allocations py 2000000000000000000000
          lowAmountReq.strategies lowAmountReq.risk_tolerance dbs
        = Except.error (OptError.validation "Amount above maximum threshold")) := by
  refine ⟨?_, ?_, ?_, ?_, ?_, ?_, ?_, ?_⟩
  · intro req m h
    simp only [optimize_yield, optimize_yield_body] at h
    split_ifs at h <;> simp at h
  · rfl
  · rfl
  · show optimize_yield _ = _
    norm_num [optimize_yield, optimize_yield_body]
  · show optimize_yield_body _ = _
    norm_num [optimize_yield_body]
  · show optimize_yield _ = _
    norm_num [optimize_yield, optimize_yield_body, lowAmountReq]
  · intro py dbs
    have h : lowAmountReq.total_amount < MIN_AMOUNT_THRESHOLD := by
      norm_num [lowAmountReq, MIN_AMOUNT_THRESHOLD]
    simp only [optimize_allocations, if_pos h]
  · intro py dbs
    have h1 : ¬ (2000000000000000000000 : Int) < MIN_AMOUNT_THRESHOLD := by
      norm_num [MIN_AMOUNT_THRESHOLD]
    have h2 : MAX_AMOUNT_THRESHOLD < (2000000000000000000000 : Int) := by
      norm_num [MAX_AMOUNT_THRESHOLD]
    simp only [optimize_allocations, if_neg h1, if_pos h2]

/-! ## Claim C10: the requested weights do not influence the result -/

/-- Erase the requested-weight field of a candidate record.  The
portfolio computation never reads that field, which the lemmas below make
precise. -/
def stripReqWeight (s : StratData) : StratData := { s with weight := 0 }

/-- The candidate record determined by the strategy id alone, with the
requested weight erased. -/
def candidateIdOnly (py : Int → Int → String → Rat) (total : Int)
    (dbs : List Strategy) (sid : Int) : Option StratData :=
  match dbs.find? (fun s => s.id == sid) with
  | none => none
  | some s =>
      some { strategy_id := sid
             name := s.name
             type := s.type
             contract_address := s.contract_address
             network := s.network
             expected_yield := py sid total s.network
             risk_score := s.risk_score
             tvl := s.tvl
             weight := 0 }

lemma candidateFor_strip (py : Int → Int → String → Rat) (total : Int)
    (dbs : List Strategy) (r : ReqStrategy) :
    (candidateFor py total dbs r).map stripReqWeight
      = candidateIdOnly py total dbs r.strategy_id := by
  cases hf : dbs.find? (fun s => s.id == r.strategy_id) with
  | none => simp [candidateFor, candidateIdOnly, hf]
  | some s => simp [candidateFor, candidateIdOnly, hf, stripReqWeight]

lemma filterMap_candidate_strip (py : Int → Int → String → Rat)
    (total : Int) (dbs : List Strategy) (reqs : List ReqStrategy) :
    (reqs.filterMap (candidateFor py total dbs)).map stripReqWeight
      = (reqs.map ReqStrategy.strategy_id).filterMap
          (candidateIdOnly py total dbs) := by
  induction reqs with
  | nil => rfl
  | cons r t ih =>
      simp only [List.filterMap_cons, List.map_cons]
      rw [← candidateFor_strip]
      cases hf : candidateFor py total dbs r with
      | none => simpa using ih
      | some s => simp [ih]

/-- The portfolio computation is insensitive to erasing the
requested-weight field of its candidates. -/
lemma mpt_strip (sd : List StratData) (total : Int) (rt : Rat) :
    modern_portfolio_theory (sd.map stripReqWeight) total rt
      = modern_portfolio_theory sd total rt := by
  simp only [modern_portfolio_theory, List.map_map, List.length_map]
  rfl

lemma isEmpty_eq_of_length_eq {α β : Type} (l1 : List α) (l2 : List β)
    (h : l1.length = l2.length) : l1.isEmpty = l2.isEmpty := by
  cases l1 <;> cases l2 <;> simp_all

/-- Claim C10: two optimize calls over the same database rows, amount,
strategy-id list and risk tolerance that differ only in the requested
per-strategy weights (both passing validation) produce identical results:
identical weight vectors and identical allocation amounts.  The requested
weight is copied into the candidate record and then never read. -/
theorem requested_weights_have_no_effect (py : Int → Int → String → Rat)
    (total : Int) (dbs : List Strategy) (rt : Rat)
    (reqs1 reqs2 : List ReqStrategy)
    (hids : reqs1.map ReqStrategy.strategy_id
      = reqs2.map ReqStrategy.strategy_id)
    (_hne : reqs1 ≠ [])
    (_hw1 : (reqs1.map ReqStrategy.weight).sum ≤ 1)
    (_hw2 : (reqs2.map ReqStrategy.weight).sum ≤ 1) :
    optimize_allocations py total reqs1 rt dbs
      = optimize_allocations py total reqs2 rt dbs := by
  have hcalc : ∀ dbs2 : List Strategy,
      calculate_optimal_allocations py total reqs1 dbs2 rt
        = calculate_optimal_allocations py total reqs2 dbs2 rt := by
    intro dbs2
    have hstrip :
        (reqs1.filterMap (candidateFor py total dbs2)).map stripReqWeight
          = (reqs2.filterMap (candidateFor py total dbs2)).map stripReqWeight := by
      rw [filterMap_candidate_strip, filterMap_candidate_strip, hids]
    have hlen : (reqs1.filterMap (candidateFor py total dbs2)).length
        = (reqs2.filterMap (candidateFor py total dbs2)).length := by
      have h := congrArg List.length hstrip
      simpa using h
    have hempty : (reqs1.filterMap (candidateFor py total dbs2)).isEmpty
        = (reqs2.filterMap (candidateFor py total dbs2)).isEmpty :=
      isEmpty_eq_of_length_eq _ _ hlen
    have hmpt :
        modern_portfolio_theory (reqs1.filterMap (candidateFor py total dbs2))
            total rt
          = modern_portfolio_theory
              (reqs2.filterMap (candidateFor py total dbs2)) total rt := by
      calc modern_portfolio_theory
              (reqs1.filterMap (candidateFor py total dbs2)) total rt
          = modern_portfolio_theory
              ((reqs1.filterMap (candidateFor py total dbs2)).map
                stripReqWeight) total rt := (mpt_strip _ total rt).symm
        _ = modern_portfolio_theory
              ((reqs2.filterMap (candidateFor py total dbs2)).map
                stripReqWeight) total rt := by rw [hstrip]
        _ = modern_portfolio_theory
              (reqs2.filterMap (candidateFor py total dbs2)) total rt :=
            mpt_strip _ total rt
    simp only [calculate_optimal_allocations, hempty, hmpt]
  by_cases h1 : total < MIN_AMOUNT_THRESHOLD
  · simp [optimize_allocations, h1]
  by_cases h2 : MAX_AMOUNT_THRESHOLD < total
  · simp [optimize_allocations, h1, h2]
  simp only [optimize_allocations, if_neg h1, if_neg h2, hids, hcalc]

def py0 : Int → Int → String → Rat := fun _ _ _ => 1 / 20

def wDbs : List Strategy :=
  [{ id := 1, name := "Compound USDC", type := "compound",
     contract_address := "0xa", network := "ethereum", apy := 1 / 20,
     tvl := 0, risk_score := 3 / 10, is_active := true }]

def wReqs1 : List ReqStrategy := [{ strategy_id := 1, weight := 2 / 5 }]

def wReqs2 : List ReqStrategy := [{ strategy_id := 1, weight := 7 / 10 }]

theorem requested_weights_have_no_effect_witness :
    (wReqs1.map ReqStrategy.strategy_id = wReqs2.map ReqStrategy.strategy_id
      ∧ wReqs1 ≠ []
      ∧ (wReqs1.map ReqStrategy.weight).sum ≤ 1
      ∧ (wReqs2.map ReqStrategy.weight).sum ≤ 1) ∧
    optimize_allocations py0 2000000000000000000 wReqs1 (1 / 2) wDbs
      = optimize_allocations py0 2000000000000000000 wReqs2 (1 / 2) wDbs :=
  ⟨⟨rfl, by simp [wReqs1], by norm_num [wReqs1], by norm_num [wReqs2]⟩,
   requested_weights_have_no_effect py0 2000000000000000000 wDbs (1 / 2)
     wReqs1 wReqs2 rfl (by simp [wReqs1]) (by norm_num [wReqs1])
     (by norm_num [wReqs2])⟩

end OmniYield
